import Mathlib

/-!
Verification of the Commodore hierarchical inventory resolution and
multi-repository dependency synchronization engine.

The development shallowly embeds the relevant parts of the code base:
pure functions become Lean functions, stateful operations become explicit
state passing, and fallible operations return `Except`.  Parts of the
engine whose implementation modules are not present in the sources
(the shared dependency store, the git repository handle, the target
renderer and the reclass merge) are modelled from the specification and
are marked as such in their doc comments.
-/

namespace Commodore

/-! ## Hierarchical merge of component layers

The merged inventory view of `parameters.components` is produced by the
external reclass engine from an ordered list of configuration layers
(lowest precedence first).  Each component entry carries an optional
`url` and an optional `version` field.
-/

/-- A component entry in one configuration layer: the `url` and `version`
fields that the layer sets (absent fields are `none`). -/
structure CVInfo where
  url : Option String
  version : Option String
deriving Repr, DecidableEq

/-- The entry of a layer that does not mention a component at all. -/
def emptyCV : CVInfo := { url := none, version := none }

/-- Leaf-level override: the higher-precedence value wins when it is set,
otherwise the lower-precedence value is kept. -/
def overrideField (base over : Option String) : Option String :=
  match over with
  | some v => some v
  | none => base

/-- Modelled from the spec: reclass-style deep merge of two component
entries at the leaf level — each field is overridden separately, the
whole mapping is never replaced wholesale. -/
def mergeCV (base over : CVInfo) : CVInfo :=
  { url := overrideField base.url over.url
    version := overrideField base.version over.version }

/-- One configuration layer of the `components` mapping: an association
list from component name to the fields the layer sets. -/
abbrev Layer := List (String × CVInfo)

/-- Look a component up in one layer; a component the layer does not
mention contributes the empty entry. -/
def layerGet (l : Layer) (n : String) : CVInfo :=
  (List.lookup n l).getD emptyCV

/-- Modelled from the spec: the merged view of component `n` over an
ordered list of layers (lowest precedence first), produced by deep
merging each layer into the accumulator
(`commodore/inventory/parameters.py` and the external reclass engine are
not among the sources). -/
def mergedComponent (layers : List Layer) (n : String) : CVInfo :=
  layers.foldl (fun acc l => mergeCV acc (layerGet l n)) emptyCV

/-! ### Fixture layers from the inventory hierarchy tests -/

/-- The `GLOBAL_PARAMS` components of the layered fixtures. -/
def globalComponents : Layer :=
  [("tc1", { url := some "tc1", version := some "gp" }),
   ("tc2", { url := some "tc2", version := some "gp" }),
   ("tc3", { url := some "tc3", version := some "gp" }),
   ("tc4", { url := some "tc4", version := some "gp" }),
   ("tc5", { url := some "tc5", version := some "gp" })]

/-- The `DIST_PARAMS` components per distribution fact. -/
def distComponents (d : String) : Layer :=
  if d == "a" then [("tc1", { url := none, version := some "a_version" })]
  else if d == "b" then [("tc2", { url := some "b_url", version := none })]
  else []

/-- Cloud-wide (region-independent) components per cloud fact, from
`CLOUD_REGION_PARAMS`. -/
def cloudParamsComponents (c : String) : Layer :=
  if c == "x" then [("tc1", { url := none, version := some "x_version" })]
  else if c == "y" then
    [("tc1", { url := some "y_params_url", version := some "y_params_version" })]
  else []

/-- Region components per (cloud, region) fact pair, from
`CLOUD_REGION_PARAMS`. -/
def regionComponents (c r : String) : Layer :=
  if c == "y" && r == "m" then [("tc4", { url := some "y_m_url", version := none })]
  else if c == "y" && r == "n" then
    [("tc4", { url := none, version := some "y_n_version" })]
  else []

/-- Modelled from the spec: the ordered layer list selected by the cluster
facts — `global.params`, then the distribution layer, then the cloud-wide
layer, then the region layer; a missing fact simply omits its layer. -/
def clusterLayers (dist cloud region : Option String) : List Layer :=
  [globalComponents]
    ++ (match dist with | some d => [distComponents d] | none => [])
    ++ (match cloud with | some c => [cloudParamsComponents c] | none => [])
    ++ (match cloud, region with
        | some c, some r => [regionComponents c r]
        | _, _ => [])

/-- The expected resolution from the test oracle `get_component`: pick
each field from the region entry, else the cloud-wide entry, else the
distribution entry, else the global default. -/
def getComponent (dist cloud region : Option String) (cn : String) :
    String × String :=
  let rc := match cloud, region with
    | some c, some r => layerGet (regionComponents c r) cn
    | _, _ => emptyCV
  let cc := match cloud with
    | some c => layerGet (cloudParamsComponents c) cn
    | none => emptyCV
  let dc := match dist with
    | some d => layerGet (distComponents d) cn
    | none => emptyCV
  (rc.url.getD (cc.url.getD (dc.url.getD cn)),
   rc.version.getD (cc.version.getD (dc.version.getD "gp")))

/-- The component names of the fixtures. -/
def componentNames : List String := ["tc1", "tc2", "tc3", "tc4", "tc5"]

/-- The distribution fact choices of the fixtures. -/
def distFactChoices : List (Option String) :=
  [none, some "a", some "b", some "c", some "d"]

/-- The valid (cloud, region) fact pairs of the fixtures. -/
def cloudRegionFactChoices : List (Option String × Option String) :=
  [(none, none), (some "x", none), (some "y", none), (some "y", some "m"),
   (some "y", some "n"), (some "y", some "o"), (some "z", none),
   (some "z", some "a")]

/-- The merged view of one component under one fact combination agrees
with the expected most-specific resolution. -/
def mergedMatchesExpected (dist cloud region : Option String) (cn : String) :
    Bool :=
  let m := mergedComponent (clusterLayers dist cloud region) cn
  let e := getComponent dist cloud region cn
  m.url == some e.1 && m.version == some e.2

/-- The merged view agrees with the expected resolution on every valid
fact combination and every fixture component. -/
def allFixtureCombosCheck : Bool :=
  distFactChoices.all fun dist =>
    cloudRegionFactChoices.all fun cr =>
      componentNames.all fun cn => mergedMatchesExpected dist cr.1 cr.2 cn

theorem mergedComponent_append (layers : List Layer) (l : Layer) (n : String) :
    mergedComponent (layers ++ [l]) n
      = mergeCV (mergedComponent layers n) (layerGet l n) := by
  simp [mergedComponent, List.foldl_append]

theorem mergedComponent_url_findSome (layers : List Layer) (n : String) :
    (mergedComponent layers n).url
      = layers.reverse.findSome? (fun l => (layerGet l n).url) := by
  induction layers using List.reverseRecOn with
  | nil => rfl
  | append_singleton layers l ih =>
      rw [mergedComponent_append, List.reverse_append]
      simp only [List.reverse_singleton, List.singleton_append,
        List.findSome?_cons]
      cases h : (layerGet l n).url with
      | none => simpa [mergeCV, overrideField, h] using ih
      | some v => simp [mergeCV, overrideField, h]

theorem mergedComponent_version_findSome (layers : List Layer) (n : String) :
    (mergedComponent layers n).version
      = layers.reverse.findSome? (fun l => (layerGet l n).version) := by
  induction layers using List.reverseRecOn with
  | nil => rfl
  | append_singleton layers l ih =>
      rw [mergedComponent_append, List.reverse_append]
      simp only [List.reverse_singleton, List.singleton_append,
        List.findSome?_cons]
      cases h : (layerGet l n).version with
      | none => simpa [mergeCV, overrideField, h] using ih
      | some v => simp [mergeCV, overrideField, h]

/-- C1: over any ordered layer list, the merged `components` view takes
each of `url` and `version` from the highest-precedence layer that sets
it (leaf-level override, never whole-mapping replacement); and on the
layered fixtures, for every valid `{distribution, cloud, region}` fact
combination and every component, the merged pair equals the most
specific non-empty `{url, version}` pair with precedence
region > cloud-params > distribution > global. -/
theorem merged_components_most_specific :
    (∀ (layers : List Layer) (n : String),
      (mergedComponent layers n).url
          = layers.reverse.findSome? (fun l => (layerGet l n).url)
        ∧ (mergedComponent layers n).version
          = layers.reverse.findSome? (fun l => (layerGet l n).version))
    ∧ allFixtureCombosCheck = true := by
  refine ⟨fun layers n => ⟨mergedComponent_url_findSome layers n,
    mergedComponent_version_findSome layers n⟩, ?_⟩
  decide

/-! ## Shared Dependency Store

URL normalization and registration of dependency repositories.  The
implementation modules (`commodore/multi_dependency.py` and the
`register_dependency_repo` part of `commodore/config.py`) are not among
the sources, so the store is modelled from the specification; the store
itself is the association list from normalized key to the stored URL of
the `MultiDependency` entry.
-/

/-- Drop `pre` from the front of `l` when it is a prefix of `l`,
otherwise keep `l` unchanged. -/
def dropFront (pre l : List Char) : List Char :=
  if pre.isPrefixOf l then l.drop pre.length else l

/-- Drop `suf` from the back of `l` when it is a suffix of `l`,
otherwise keep `l` unchanged. -/
def dropBack (suf l : List Char) : List Char :=
  (dropFront suf.reverse l.reverse).reverse

/-- Modelled from the spec: `dependency_key` normalizes a repository URL
to an identity that is independent of the transport scheme (https/ssh,
including the ssh user part) and of a trailing `.git`
(`commodore/multi_dependency.py` is not among the sources). -/
def dependency_key (url : String) : String :=
  let l := dropFront "https://".data url.data
  let l := dropFront "ssh://".data l
  let l := dropFront "git@".data l
  ⟨dropBack ".git".data l⟩

/-- Whether a repository URL uses the ssh transport scheme. -/
def isSshUrl (url : String) : Bool := "ssh://".data.isPrefixOf url.data

/-- The Shared Dependency Store: normalized key to the stored URL of the
dependency entry, in registration order. -/
abbrev DependencyStore := List (String × String)

/-- Overwrite the stored URL of the entry with key `key`. -/
def updateEntry (key url : String) (kv : String × String) : String × String :=
  if kv.1 = key then (kv.1, url) else kv

/-- Modelled from the spec: `Config.register_dependency_repo` — normalize
the URL to a key; when an entry with this key exists, update its stored
URL preferring ssh over https and keep the single entry; otherwise
append a new entry (this part of `commodore/config.py` is not among the
sources). -/
def register_dependency_repo (store : DependencyStore) (url : String) :
    DependencyStore :=
  let key := dependency_key url
  match List.lookup key store with
  | some _ =>
      if isSshUrl url then store.map (updateEntry key url) else store
  | none => store ++ [(key, url)]

theorem lookup_append_of_none {β : Type} (l₁ l₂ : List (String × β))
    (k : String) (h : List.lookup k l₁ = none) :
    List.lookup k (l₁ ++ l₂) = List.lookup k l₂ := by
  induction l₁ with
  | nil => rfl
  | cons kv rest ih =>
      obtain ⟨a, b⟩ := kv
      by_cases hk : k = a
      · simp [List.lookup, hk] at h
      · have hba : (k == a) = false := beq_eq_false_iff_ne.mpr hk
        simp only [List.cons_append, List.lookup, hba] at h ⊢
        exact ih h

theorem map_updateEntry_of_none (s : DependencyStore) (k u : String)
    (h : List.lookup k s = none) : s.map (updateEntry k u) = s := by
  induction s with
  | nil => rfl
  | cons kv rest ih =>
      obtain ⟨a, b⟩ := kv
      by_cases hk : k = a
      · simp [List.lookup, hk] at h
      · have hba : (k == a) = false := beq_eq_false_iff_ne.mpr hk
        simp only [List.lookup, hba] at h
        have hab : ¬(a = k) := fun hh => hk hh.symm
        simp only [List.map_cons, updateEntry, if_neg hab, ih h]

theorem updateEntry_self (k u b : String) : updateEntry k u (k, b) = (k, u) := by
  simp [updateEntry]

theorem updateEntry_other (k u a b : String) (h : ¬a = k) :
    updateEntry k u (a, b) = (a, b) := by
  simp [updateEntry, h]

theorem lookup_map_updateEntry (s : DependencyStore) (k u : String) :
    List.lookup k (s.map (updateEntry k u))
      = (List.lookup k s).map (fun _ => u) := by
  induction s with
  | nil => rfl
  | cons kv rest ih =>
      obtain ⟨a, b⟩ := kv
      by_cases hk : a = k
      · subst hk
        rw [List.map_cons, updateEntry_self]
        simp [List.lookup]
      · have hba : (k == a) = false :=
          beq_eq_false_iff_ne.mpr (fun hh => hk hh.symm)
        rw [List.map_cons, updateEntry_other _ _ _ _ hk]
        simp only [List.lookup, hba, ih]

theorem updateEntry_idem (k u : String) (kv : String × String) :
    updateEntry k u (updateEntry k u kv) = updateEntry k u kv := by
  obtain ⟨a, b⟩ := kv
  by_cases hk : a = k
  · simp [updateEntry, hk]
  · simp [updateEntry, hk]

theorem register_dependency_repo_idem (s : DependencyStore) (u : String) :
    register_dependency_repo (register_dependency_repo s u) u
      = register_dependency_repo s u := by
  unfold register_dependency_repo
  cases h : List.lookup (dependency_key u) s with
  | none =>
      have h2 : List.lookup (dependency_key u)
          (s ++ [(dependency_key u, u)]) = some u := by
        rw [lookup_append_of_none _ _ _ h]
        simp [List.lookup]
      simp only [h, h2]
      by_cases hssh : isSshUrl u
      · simp only [hssh, if_true, List.map_append,
          map_updateEntry_of_none s _ _ h, List.map_cons, List.map_nil,
          updateEntry, if_pos rfl]
      · simp [hssh]
  | some v =>
      simp only [h]
      by_cases hssh : isSshUrl u
      · have h2 : List.lookup (dependency_key u)
            (s.map (updateEntry (dependency_key u) u)) = some u := by
          rw [lookup_map_updateEntry, h]
          rfl
        simp only [hssh, if_true, h2, List.map_map]
        congr 1
        funext kv
        exact updateEntry_idem _ _ kv
      · simp [hssh, h]

/-- C2: registering a repository URL is idempotent — a second
registration of the same URL leaves the store unchanged, so it never
creates a second entry; and on the concrete https/ssh pair of the spec,
registering the https form creates one entry storing the https URL,
registering the ssh form keeps exactly that one entry but overwrites its
stored URL with the ssh form, and re-registering the https form
afterwards still leaves the single ssh-URL entry. -/
theorem register_dependency_repo_dedup_prefer_ssh :
    (∀ (s : DependencyStore) (u : String),
        register_dependency_repo (register_dependency_repo s u) u
          = register_dependency_repo s u)
    ∧ register_dependency_repo [] "https://git.example.com/repo.git"
        = [("git.example.com/repo", "https://git.example.com/repo.git")]
    ∧ register_dependency_repo
        (register_dependency_repo [] "https://git.example.com/repo.git")
        "ssh://git@git.example.com/repo.git"
        = [("git.example.com/repo", "ssh://git@git.example.com/repo.git")]
    ∧ register_dependency_repo (register_dependency_repo
        (register_dependency_repo [] "https://git.example.com/repo.git")
        "ssh://git@git.example.com/repo.git")
        "https://git.example.com/repo.git"
        = [("git.example.com/repo", "ssh://git@git.example.com/repo.git")] := by
  refine ⟨register_dependency_repo_idem, ?_, ?_, ?_⟩ <;> decide

/-! ## Dependency Resolver: `_read_versions`

Embeds `_read_versions` from
`src/commodore/dependency_mgmt/version_parsing.py`.  The merged
inventory lookup `inv[bootstrap_target]["parameters"].get(deps_key)` is
passed in directly as an optional association list; errors are
structured values carrying exactly the names the raised
`click.ClickException` messages carry.
-/

/-- A raw dependency entry of `parameters.components` /
`parameters.packages`: each key may be absent. -/
structure DepInfo where
  url : Option String
  version : Option String
  path : Option String
deriving Repr, DecidableEq

/-- Class for parsed Dependency specification. -/
structure DependencySpec where
  url : String
  version : String
  path : String
deriving Repr, DecidableEq

/-- The user-facing configuration errors of `_read_versions`, carrying
the names that the corresponding `click.ClickException` messages name. -/
inductive DepErr where
  | missingList (depsKey : String)
  | unknownDep (depname depsKey : String)
  | missingUrl (depname : String)
  | missingVersion (depname : String)
deriving Repr, DecidableEq

/-- The `path` handling of `_read_versions`: default empty, strip one
leading slash. -/
def stripLeadingSlash (p : String) : String :=
  match p.data with
  | '/' :: rest => ⟨rest⟩
  | _ => p

/-- The per-name loop of `_read_versions`: fail on an unknown name, a
missing `url` key or a missing `version` key, otherwise record the
parsed `DependencySpec`. -/
def readVersionsLoop (depsKey : String) (deps : List (String × DepInfo))
    (names : List String) (acc : List (String × DependencySpec)) :
    Except DepErr (List (String × DependencySpec)) :=
  match names with
  | [] => .ok acc
  | depname :: rest =>
      match List.lookup depname deps with
      | none => .error (.unknownDep depname depsKey)
      | some info =>
          match info.url with
          | none => .error (.missingUrl depname)
          | some url =>
              match info.version with
              | none => .error (.missingVersion depname)
              | some version =>
                  readVersionsLoop depsKey deps rest
                    (acc ++ [(depname,
                      { url := url, version := version,
                        path := stripLeadingSlash (info.path.getD "") })])

/-- Embeds `_read_versions`: a missing or empty dependency mapping is an error
when the key is required and an empty mapping otherwise, then every
requested name is resolved by the loop. -/
def _read_versions (depsKey : String)
    (deps0 : Option (List (String × DepInfo))) (names : List String)
    (requireKey : Bool) : Except DepErr (List (String × DependencySpec)) :=
  let deps := deps0.getD []
  if deps.isEmpty && requireKey then .error (.missingList depsKey)
  else readVersionsLoop depsKey deps names []

/-- What each `_read_versions` error tells the user, related back to the
inputs: the offending dependency name is a requested name and the named
key is really missing. -/
def errDescribes (e : DepErr) (depsKey : String)
    (deps0 : Option (List (String × DepInfo))) (names : List String)
    (requireKey : Bool) : Prop :=
  match e with
  | .missingList k =>
      k = depsKey ∧ requireKey = true ∧ (deps0.getD []).isEmpty = true
  | .unknownDep n k =>
      k = depsKey ∧ n ∈ names ∧ List.lookup n (deps0.getD []) = none
  | .missingUrl n =>
      n ∈ names
        ∧ ∃ info, List.lookup n (deps0.getD []) = some info ∧ info.url = none
  | .missingVersion n =>
      n ∈ names
        ∧ ∃ info, List.lookup n (deps0.getD []) = some info
            ∧ info.version = none

theorem lookup_append_isSome {β : Type} (l₁ l₂ : List (String × β))
    (k : String) :
    (List.lookup k (l₁ ++ l₂)).isSome
      = ((List.lookup k l₁).isSome || (List.lookup k l₂).isSome) := by
  induction l₁ with
  | nil => rfl
  | cons kv rest ih =>
      obtain ⟨a, b⟩ := kv
      cases hba : (k == a) with
      | true => simp [List.lookup, hba]
      | false =>
          simp only [List.cons_append, List.lookup, hba]
          exact ih

theorem readVersionsLoop_spec (depsKey : String)
    (deps : List (String × DepInfo)) (names : List String)
    (acc : List (String × DependencySpec)) :
    (∃ e, readVersionsLoop depsKey deps names acc = .error e
      ∧ ∀ rk, errDescribes e depsKey (some deps) names rk)
    ∨ (∃ m, readVersionsLoop depsKey deps names acc = .ok m
      ∧ (∀ n ∈ names, (List.lookup n m).isSome = true)
      ∧ (∀ n, (List.lookup n acc).isSome = true
          → (List.lookup n m).isSome = true)) := by
  induction names generalizing acc with
  | nil =>
      exact .inr ⟨acc, rfl, fun n hn => absurd hn (List.not_mem_nil n), fun n h => h⟩
  | cons depname rest ih =>
      cases hdep : List.lookup depname deps with
      | none =>
          refine .inl ⟨.unknownDep depname depsKey, ?_,
            fun rk => ⟨rfl, List.mem_cons_self _ _, hdep⟩⟩
          simp [readVersionsLoop, hdep]
      | some info =>
          cases hurl : info.url with
          | none =>
              refine .inl ⟨.missingUrl depname, ?_,
                fun rk => ⟨List.mem_cons_self _ _, info, hdep, hurl⟩⟩
              simp [readVersionsLoop, hdep, hurl]
          | some url =>
              cases hver : info.version with
              | none =>
                  refine .inl ⟨.missingVersion depname, ?_,
                    fun rk => ⟨List.mem_cons_self _ _, info, hdep, hver⟩⟩
                  simp [readVersionsLoop, hdep, hurl, hver]
              | some version =>
                  have hstep : readVersionsLoop depsKey deps
                      (depname :: rest) acc
                      = readVersionsLoop depsKey deps rest
                        (acc ++ [(depname,
                          { url := url, version := version,
                            path := stripLeadingSlash (info.path.getD "") })]) := by
                    simp [readVersionsLoop, hdep, hurl, hver]
                  rcases ih (acc ++ [(depname,
                      { url := url, version := version,
                        path := stripLeadingSlash (info.path.getD "") })]) with
                    ⟨e, he, hd⟩ | ⟨m, hm, hmem, hpres⟩
                  · refine .inl ⟨e, hstep.trans he, fun rk => ?_⟩
                    cases e with
                    | missingList k => exact hd rk
                    | unknownDep n k =>
                        exact ⟨(hd rk).1,
                          List.mem_cons_of_mem _ (hd rk).2.1, (hd rk).2.2⟩
                    | missingUrl n =>
                        exact ⟨List.mem_cons_of_mem _ (hd rk).1, (hd rk).2⟩
                    | missingVersion n =>
                        exact ⟨List.mem_cons_of_mem _ (hd rk).1, (hd rk).2⟩
                  · refine .inr ⟨m, hstep.trans hm, ?_, ?_⟩
                    · intro n hn
                      rcases List.mem_cons.mp hn with hn | hn
                      · subst hn
                        apply hpres
                        rw [lookup_append_isSome]
                        simp [List.lookup]
                      · exact hmem n hn
                    · intro n h
                      apply hpres
                      rw [lookup_append_isSome, h, Bool.true_or]

/-- C3: for every requested dependency name list, `_read_versions`
either fails with a structured user-facing error that names the
offending dependency and the exact missing key (absent name, missing
`url`, missing `version`, or a required-but-missing dependency list), or
returns a mapping that contains an entry for every requested name — no
requested name is silently skipped or defaulted. -/
theorem read_versions_total_or_error (depsKey : String)
    (deps0 : Option (List (String × DepInfo))) (names : List String)
    (requireKey : Bool) :
    (∃ e, _read_versions depsKey deps0 names requireKey = .error e
      ∧ errDescribes e depsKey deps0 names requireKey)
    ∨ (∃ m, _read_versions depsKey deps0 names requireKey = .ok m
      ∧ ∀ n ∈ names, (List.lookup n m).isSome = true) := by
  unfold _read_versions
  cases hek : ((deps0.getD []).isEmpty && requireKey) with
  | true =>
      refine .inl ⟨.missingList depsKey, by simp [hek], rfl, ?_, ?_⟩
      · exact (Bool.and_eq_true _ _ |>.mp hek).2
      · exact (Bool.and_eq_true _ _ |>.mp hek).1
  | false =>
      simp only [hek, Bool.false_eq_true, if_false]
      rcases readVersionsLoop_spec depsKey (deps0.getD []) names [] with
        ⟨e, he, hd⟩ | ⟨m, hm, hmem, _⟩
      · exact .inl ⟨e, he, hd requireKey⟩
      · exact .inr ⟨m, hm, hmem⟩

/-! ## Target Renderer

`commodore/cluster.py` is not among the sources; `render_target` and
`render_params` are modelled from the specification and the behaviour
fixed by their tests.  A rendered target's `parameters` mapping is
represented by the fields the claims are about: `_instance`,
`parameters.kapitan.vars.target` and the alias back-reference entry.
-/

/-- The bootstrap/cluster target name (`Inventory.bootstrap_target`). -/
def bootstrap_target : String := "cluster"

/-- Name-to-key conversion of the renderer: `-` becomes `_`. -/
def nameToKey (s : String) : String :=
  ⟨s.data.map (fun c => if c = '-' then '_' else c)⟩

/-- The back-reference value, a reclass reference to the given key. -/
def refString (key : String) : String := "$\x7b" ++ key ++ "\x7d"

/-- The rendered `parameters` fields the claims are about. -/
structure TargetParameters where
  instanceName : String
  kapitanVarsTarget : Option String
  backref : Option (String × String)
deriving Repr, DecidableEq

/-- A rendered target descriptor: ordered class list plus parameters. -/
structure RenderedTarget where
  classes : List String
  parameters : TargetParameters
deriving Repr, DecidableEq

/-- The resource-state errors of `render_target`. -/
inductive TargetErr where
  | notAComponent (target : String)
  | missingComponentClassFile (component : String)
deriving Repr, DecidableEq

/-- Modelled from the spec: `cluster.render_target` — the class list is
`params.cluster`, one `defaults.<c>` per active component whose defaults
file exists (in declaration order), `global.commodore`, and for a
non-bootstrap target `components.<component>` last; every target sets
`_instance`, non-bootstrap targets set `parameters.kapitan.vars.target`,
and an aliased target adds the back-reference
`<component key> : ref(<target key>)` (`commodore/cluster.py` is not
among the sources). -/
def render_target (hasDefaults hasComponentClassFile : String → Bool)
    (target : String) (components : List String)
    (component : Option String) : Except TargetErr RenderedTarget :=
  if ¬(target = bootstrap_target) ∧ component.getD target ∉ components then
    .error (.notAComponent target)
  else if ¬(target = bootstrap_target)
      ∧ hasComponentClassFile (component.getD target) = false then
    .error (.missingComponentClassFile (component.getD target))
  else
    .ok ⟨["params.cluster"]
          ++ (components.filter hasDefaults).map (fun c => "defaults." ++ c)
          ++ ["global.commodore"]
          ++ (if target = bootstrap_target then []
              else ["components." ++ component.getD target]),
      ⟨target,
        if target = bootstrap_target then none else some target,
        if ¬(target = bootstrap_target) ∧ component.getD target ≠ target then
          some (nameToKey (component.getD target),
            refString (nameToKey target))
        else none⟩⟩

/-- Whether `s` is a class of the kind named by the prefix `pre`
(e.g. `components.` for a `components.*` class). -/
def isClassKind (pre s : String) : Bool := pre.data.isPrefixOf s.data

theorem string_data_append (s t : String) : (s ++ t).data = s.data ++ t.data :=
  rfl

theorem isPrefixOf_head_ne (a : Char) (pre : List Char) (b : Char)
    (rest : List Char) (h : (a == b) = false) :
    (a :: pre).isPrefixOf (b :: rest) = false := by
  rw [List.isPrefixOf_cons₂, h, Bool.false_and]

theorem isPrefixOf_append_self (l t : List Char) :
    l.isPrefixOf (l ++ t) = true := by
  induction l with
  | nil => simp
  | cons a as ih => simp [List.isPrefixOf_cons₂, ih]

theorem components_not_kind_defaults (c : String) :
    isClassKind "components." ("defaults." ++ c) = false := by
  show ("components.".data).isPrefixOf (("defaults." ++ c).data) = false
  rw [string_data_append]
  show ('c' :: "omponents.".data).isPrefixOf
    ('d' :: ("efaults.".data ++ c.data)) = false
  exact isPrefixOf_head_ne _ _ _ _ (by decide)

theorem defaults_not_kind_components (c : String) :
    isClassKind "defaults." ("components." ++ c) = false := by
  show ("defaults.".data).isPrefixOf (("components." ++ c).data) = false
  rw [string_data_append]
  show ('d' :: "efaults.".data).isPrefixOf
    ('c' :: ("omponents.".data ++ c.data)) = false
  exact isPrefixOf_head_ne _ _ _ _ (by decide)

theorem components_kind_self (c : String) :
    isClassKind "components." ("components." ++ c) = true := by
  show ("components.".data).isPrefixOf (("components." ++ c).data) = true
  rw [string_data_append]
  exact isPrefixOf_append_self _ _

/-- C4: a successfully rendered target's class list is exactly
`params.cluster`, one `defaults.<c>` per active component (those whose
defaults file exists) in declaration order, `global.commodore`, and —
only for a non-bootstrap target — `components.<component>`; hence the
bootstrap/cluster target never contains a `components.*` class, and a
named component target contains exactly one, in last position. -/
theorem render_target_classes_shape
    (hasDefaults hasComponentClassFile : String → Bool) (target : String)
    (components : List String) (component : Option String)
    (rt : RenderedTarget)
    (h : render_target hasDefaults hasComponentClassFile target components
      component = .ok rt) :
    rt.classes
        = ["params.cluster"]
          ++ (components.filter hasDefaults).map (fun c => "defaults." ++ c)
          ++ ["global.commodore"]
          ++ (if target = bootstrap_target then []
              else ["components." ++ component.getD target])
      ∧ rt.classes.head? = some "params.cluster"
      ∧ (target = bootstrap_target →
          ∀ s ∈ rt.classes, isClassKind "components." s = false)
      ∧ (target ≠ bootstrap_target →
          rt.classes.filter (isClassKind "components.")
              = ["components." ++ component.getD target]
            ∧ rt.classes.getLast?
              = some ("components." ++ component.getD target)) := by
  unfold render_target at h
  split at h
  · exact Except.noConfusion h
  · split at h
    · exact Except.noConfusion h
    · rw [Except.ok.injEq] at h
      subst h
      refine ⟨rfl, rfl, ?_, ?_⟩
      · intro hb s hs
        subst hb
        rw [if_pos rfl, List.append_nil] at hs
        rcases List.mem_append.mp hs with hs | hs
        · rcases List.mem_append.mp hs with hs | hs
          · rw [List.mem_singleton] at hs
            subst hs
            decide
          · rcases List.mem_map.mp hs with ⟨c, _, hc⟩
            subst hc
            exact components_not_kind_defaults c
        · rw [List.mem_singleton] at hs
          subst hs
          decide
      · intro hb
        rw [if_neg hb]
        constructor
        · simp only [List.filter_append]
          rw [List.filter_eq_nil_iff.mpr, List.filter_eq_nil_iff.mpr,
            List.filter_eq_nil_iff.mpr]
          · simp [List.filter, components_kind_self]
          · intro a ha
            rw [List.mem_singleton] at ha
            subst ha
            decide
          · intro a ha
            rcases List.mem_map.mp ha with ⟨c, _, hc⟩
            subst hc
            simp [components_not_kind_defaults c]
          · intro a ha
            rw [List.mem_singleton] at ha
            subst ha
            decide
        · exact List.getLast?_concat _

/-- The defaults-file predicate of the renderer test fixtures. -/
def fooBarDefaults : String → Bool := fun c => c == "foo" || c == "bar"

/-- The expected rendered `foo` target of the renderer test fixtures. -/
def c4Target : RenderedTarget :=
  ⟨["params.cluster", "defaults.foo", "defaults.bar", "global.commodore",
    "components.foo"], ⟨"foo", some "foo", none⟩⟩

theorem render_target_classes_shape_witness :
    c4Target.classes
        = ["params.cluster"]
          ++ ((["foo", "bar", "baz"].filter fooBarDefaults).map
            (fun c => "defaults." ++ c))
          ++ ["global.commodore"]
          ++ (if "foo" = bootstrap_target then []
              else ["components." ++ (none : Option String).getD "foo"])
      ∧ c4Target.classes.head? = some "params.cluster"
      ∧ ("foo" = bootstrap_target →
          ∀ s ∈ c4Target.classes, isClassKind "components." s = false)
      ∧ ("foo" ≠ bootstrap_target →
          c4Target.classes.filter (isClassKind "components.")
              = ["components." ++ (none : Option String).getD "foo"]
            ∧ c4Target.classes.getLast?
              = some ("components." ++ (none : Option String).getD "foo")) :=
  render_target_classes_shape fooBarDefaults fooBarDefaults "foo"
    ["foo", "bar", "baz"] none c4Target rfl

/-- C5: a successfully rendered aliased target (explicit component name
differing from the target name, non-bootstrap) carries the
back-reference entry mapping the underscored component name to a
reference to the underscored alias name, and sets both
`parameters.kapitan.vars.target` and `parameters._instance` to the alias
name. -/
theorem render_target_alias_backref
    (hasDefaults hasComponentClassFile : String → Bool) (target : String)
    (components : List String) (comp : String) (rt : RenderedTarget)
    (hb : target ≠ bootstrap_target) (hc : comp ≠ target)
    (h : render_target hasDefaults hasComponentClassFile target components
      (some comp) = .ok rt) :
    rt.parameters.backref
        = some (nameToKey comp, refString (nameToKey target))
      ∧ rt.parameters.kapitanVarsTarget = some target
      ∧ rt.parameters.instanceName = target := by
  unfold render_target at h
  split at h
  · exact Except.noConfusion h
  · split at h
    · exact Except.noConfusion h
    · rw [Except.ok.injEq] at h
      subst h
      refine ⟨?_, rfl, rfl⟩
      show (if ¬(target = bootstrap_target)
          ∧ (some comp).getD target ≠ target then
          some (nameToKey ((some comp).getD target),
            refString (nameToKey target))
        else none) = some (nameToKey comp, refString (nameToKey target))
      rw [if_pos ⟨hb, hc⟩]
      rfl

/-- The defaults-file predicate of the dashed-alias renderer test. -/
def fooCompDefaults : String → Bool := fun c => c == "foo-comp" || c == "bar"

/-- The expected rendered aliased target `foo-1` of component
`foo-comp`. -/
def c5Target : RenderedTarget :=
  ⟨["params.cluster", "defaults.foo-comp", "defaults.bar",
    "global.commodore", "components.foo-comp"],
   ⟨"foo-1", some "foo-1", some ("foo_comp", "$\x7bfoo_1\x7d")⟩⟩

theorem render_target_alias_backref_witness :
    c5Target.parameters.backref
        = some (nameToKey "foo-comp", refString (nameToKey "foo-1"))
      ∧ c5Target.parameters.kapitanVarsTarget = some "foo-1"
      ∧ c5Target.parameters.instanceName = "foo-1" :=
  render_target_alias_backref fooCompDefaults fooCompDefaults "foo-1"
    ["foo-comp", "bar", "baz"] "foo-comp" c5Target (by decide) (by decide) rfl

/-! ## Repository Handle: `stage_all` conflict detection

`commodore/gitrepo.py` is not among the sources; the staging behaviour
is modelled from the specification and its tests.
-/

/-- The merge-conflict error of the repository handle, carrying the
relative path of the conflicting file. -/
inductive MergeConflict where
  | conflict (path : String)
deriving Repr, DecidableEq

/-- The state of one git working tree: the committed files and the
current working-tree files, each `(relative path, content)`. -/
structure GitRepoState where
  committed : List (String × String)
  worktree : List (String × String)
deriving Repr, DecidableEq

/-- The standard 3-way merge conflict marker. -/
def conflictMarker : List Char := "<<<<<<<".data

/-- Whether `pat` occurs as a contiguous run somewhere in `l`. -/
def containsSub (pat l : List Char) : Bool :=
  match l with
  | [] => pat.isEmpty
  | _ :: rest => pat.isPrefixOf l || containsSub pat rest

/-- A file content contains unresolved conflict markers. -/
def hasConflictMarkers (content : String) : Bool :=
  containsSub conflictMarker content.data

/-- The worktree paths whose content holds unresolved conflict markers,
in working-tree order. -/
def conflictedPaths (files : List (String × String)) : List String :=
  (files.filter (fun f => hasConflictMarkers f.2)).map (fun f => f.1)

/-- The abstracted diff: the paths whose working-tree content differs
from the committed content. -/
def changedPaths (r : GitRepoState) : List String :=
  (r.worktree.filter
    (fun f => !(List.lookup f.1 r.committed == some f.2))).map (fun f => f.1)

/-- Modelled from the spec: `GitRepo.stage_all` — stage every remaining
change and return `(diff, changed)`, or raise `MergeConflict(path)`
carrying the first conflicting path when the working tree holds
unresolved conflict markers; no conflict resolution is ever attempted
(`commodore/gitrepo.py` is not among the sources). -/
def stage_all (r : GitRepoState) :
    Except MergeConflict (List String × Bool) :=
  match conflictedPaths r.worktree with
  | p :: _ => .error (.conflict p)
  | [] => .ok (changedPaths r, !(changedPaths r).isEmpty)

/-- C6: whenever the working tree contains a file with unresolved 3-way
merge conflict markers, `stage_all` raises `MergeConflict`, and the
error value carries exactly the relative path of the first conflicting
file in working-tree order — a path whose content really holds the
conflict marker; no staged result is produced, so nothing is resolved
automatically. -/
theorem stage_all_raises_on_conflict (r : GitRepoState) (p c : String)
    (hmem : (p, c) ∈ r.worktree) (hconf : hasConflictMarkers c = true) :
    ∃ q rest, conflictedPaths r.worktree = q :: rest
      ∧ stage_all r = .error (.conflict q)
      ∧ ∃ cq, (q, cq) ∈ r.worktree ∧ hasConflictMarkers cq = true := by
  have hpc : (p, c) ∈ r.worktree.filter (fun f => hasConflictMarkers f.2) :=
    List.mem_filter.mpr ⟨hmem, hconf⟩
  have hp : p ∈ conflictedPaths r.worktree :=
    List.mem_map.mpr ⟨(p, c), hpc, rfl⟩
  cases hcp : conflictedPaths r.worktree with
  | nil =>
      rw [hcp] at hp
      exact absurd hp (List.not_mem_nil p)
  | cons q rest =>
      refine ⟨q, rest, rfl, ?_, ?_⟩
      · unfold stage_all
        rw [hcp]
      · have hq : q ∈ conflictedPaths r.worktree := by
          rw [hcp]
          exact List.mem_cons_self q rest
        rcases List.mem_map.mp hq with ⟨⟨q', cq⟩, hmem', heq⟩
        rcases List.mem_filter.mp hmem' with ⟨hw, hcf⟩
        exact ⟨cq, heq ▸ hw, hcf⟩

/-- The conflicted content the test produces in `test.txt`. -/
def conflictContent : String :=
  "<<<<<<< HEAD\nHello, world!\n=======\nYo World!\n>>>>>>> theirs\n"

/-- The repository state after the failed 3-way apply of the test. -/
def conflictRepo : GitRepoState :=
  ⟨[("test.txt", "Hello, world!\n")], [("test.txt", conflictContent)]⟩

theorem stage_all_raises_on_conflict_witness :
    ∃ q rest, conflictedPaths conflictRepo.worktree = q :: rest
      ∧ stage_all conflictRepo = .error (.conflict q)
      ∧ ∃ cq, (q, cq) ∈ conflictRepo.worktree
          ∧ hasConflictMarkers cq = true :=
  stage_all_raises_on_conflict conflictRepo "test.txt" conflictContent
    (by decide) (by decide)

/-- C6 sanity: the carried path is exactly `test.txt`. -/
theorem stage_all_conflict_path_exact :
    stage_all conflictRepo = .error (.conflict "test.txt") := rfl

/-! ## Shared Dependency Store: worktree checkouts and deletion -/

/-- A Shared Dependency Store entry with its attached worktree
checkouts: the stored URL, the bare clone directory and the worktree
paths checked out from it.  Modelled from the spec
(`commodore/multi_dependency.py` is not among the sources). -/
structure MultiDependency where
  url : String
  repo_directory : String
  checkouts : List String
deriving Repr, DecidableEq

/-- Embeds `MultiDependency.has_checkouts`: whether any worktree checkout is
attached to the bare clone. -/
def has_checkouts (d : MultiDependency) : Bool := !d.checkouts.isEmpty

/-- The dependency entry after the component worktree directory `cdir`
has been removed. -/
def remainingDep (dep : MultiDependency) (cdir : String) : MultiDependency :=
  { dep with checkouts := dep.checkouts.filter (fun p => !(p == cdir)) }

/-- The observable effect of deleting one component: the dependency
entry afterwards and whether the bare clone directory was removed. -/
structure DeleteEffect where
  dep : MultiDependency
  bareRemoved : Bool
deriving Repr, DecidableEq

/-- Embeds the branch logic of `ComponentTemplater.delete`
(`src/commodore/component/template.py`): the component worktree
directory is removed, then the bare clone directory is removed exactly
when `has_checkouts()` is false afterwards, otherwise it is kept for
the sibling worktrees (the `MultiDependency` checkout bookkeeping is
modelled from the spec). -/
def componentTemplaterDelete (dep : MultiDependency) (cdir : String) :
    DeleteEffect :=
  if ¬has_checkouts (remainingDep dep cdir) = true then
    ⟨remainingDep dep cdir, true⟩
  else
    ⟨remainingDep dep cdir, false⟩

/-- C7: deleting a component removes its worktree from the dependency
entry's checkout set; afterwards the bare clone directory is removed if
and only if `has_checkouts()` is false, and every sibling worktree of
the same dependency (as well as the entry's URL and bare directory
path) is untouched. -/
theorem component_delete_bare_iff_no_checkouts (dep : MultiDependency)
    (cdir : String) :
    (componentTemplaterDelete dep cdir).bareRemoved
        = !has_checkouts (componentTemplaterDelete dep cdir).dep
      ∧ cdir ∉ (componentTemplaterDelete dep cdir).dep.checkouts
      ∧ (∀ p ∈ dep.checkouts, p ≠ cdir
          → p ∈ (componentTemplaterDelete dep cdir).dep.checkouts)
      ∧ (componentTemplaterDelete dep cdir).dep.url = dep.url
      ∧ (componentTemplaterDelete dep cdir).dep.repo_directory
        = dep.repo_directory := by
  have hdep : (componentTemplaterDelete dep cdir).dep = remainingDep dep cdir := by
    unfold componentTemplaterDelete
    split <;> rfl
  refine ⟨?_, ?_, ?_, by rw [hdep]; rfl, by rw [hdep]; rfl⟩
  · unfold componentTemplaterDelete
    split <;> rename_i hchk <;> simp_all
  · rw [hdep]
    intro hmem
    have := (List.mem_filter.mp hmem).2
    simp at this
  · intro p hp hne
    rw [hdep]
    exact List.mem_filter.mpr ⟨hp, by simp [hne]⟩

theorem component_delete_bare_iff_no_checkouts_witness :
    (componentTemplaterDelete ⟨"u", "bare", ["wa", "wb"]⟩ "wa").bareRemoved
        = !has_checkouts
          (componentTemplaterDelete ⟨"u", "bare", ["wa", "wb"]⟩ "wa").dep
      ∧ "wb" ∈ (componentTemplaterDelete
          ⟨"u", "bare", ["wa", "wb"]⟩ "wa").dep.checkouts := by
  have h := component_delete_bare_iff_no_checkouts
    ⟨"u", "bare", ["wa", "wb"]⟩ "wa"
  exact ⟨h.1, h.2.2.1 "wb" (by decide) (by decide)⟩

/-! ## Alias verification (`Config.verify_component_aliases`) -/

/-- Embeds `component_parameters_key`: the inventory parameters key of a
component, `-` replaced by `_` (`commodore/component/__init__.py` is not
among the sources; modelled from the spec naming convention). -/
def component_parameters_key (name : String) : String := nameToKey name

/-- The per-component cluster parameters the alias check reads: the
deprecated top-level `multi_instance` key and
`_metadata.multi_instance`, each optional. -/
structure ComponentParams where
  multi_instance : Option Bool
  metaMultiInstance : Option Bool
deriving Repr, DecidableEq

/-- The failures of the alias check: the `KeyError` of indexing an
absent component key, or the `click.ClickException` naming the
component and the alias. -/
inductive AliasErr where
  | keyError (ckey : String)
  | notMultiInstance (cn aliasName : String)
deriving Repr, DecidableEq

/-- Embeds `Config._component_is_aliasable` (`src/commodore/config.py`):
the deprecated top-level `multi_instance` parameter wins when present
(the deprecation notice it also registers is omitted here), otherwise
`_metadata.multi_instance` defaulting to false; indexing an absent
component key raises `KeyError`. -/
def _component_is_aliasable
    (clusterParams : List (String × ComponentParams)) (cn : String) :
    Except AliasErr Bool :=
  match List.lookup (component_parameters_key cn) clusterParams with
  | none => .error (.keyError (component_parameters_key cn))
  | some p =>
      match p.multi_instance with
      | some b => .ok b
      | none => .ok (p.metaMultiInstance.getD false)

/-- Embeds `Config.verify_component_aliases`
(`src/commodore/config.py`): for every alias entry whose alias differs
from the component name, the component must be aliasable, else the
raised error names the component and the alias. -/
def verify_component_aliases (aliases : List (String × String))
    (clusterParams : List (String × ComponentParams)) :
    Except AliasErr Unit :=
  match aliases with
  | [] => .ok ()
  | (aliasName, cn) :: rest =>
      if aliasName ≠ cn then
        match _component_is_aliasable clusterParams cn with
        | .error e => .error e
        | .ok true => verify_component_aliases rest clusterParams
        | .ok false => .error (.notMultiInstance cn aliasName)
      else verify_component_aliases rest clusterParams

theorem verify_ok_iff (aliases : List (String × String))
    (clusterParams : List (String × ComponentParams)) :
    verify_component_aliases aliases clusterParams = .ok ()
      ↔ ∀ e ∈ aliases, e.1 ≠ e.2
          → _component_is_aliasable clusterParams e.2 = .ok true := by
  induction aliases with
  | nil => simp [verify_component_aliases]
  | cons hd rest ih =>
      obtain ⟨aliasName, cn⟩ := hd
      by_cases hne : aliasName = cn
      · simp [verify_component_aliases, hne, ih]
      · cases hal : _component_is_aliasable clusterParams cn with
        | error e =>
            simp [verify_component_aliases, hne, hal]
        | ok b =>
            cases b with
            | true => simp [verify_component_aliases, hne, hal, ih]
            | false => simp [verify_component_aliases, hne, hal]

theorem aliasable_no_notMultiInstance
    (clusterParams : List (String × ComponentParams)) (cn : String)
    (c a : String) :
    _component_is_aliasable clusterParams cn
      ≠ .error (.notMultiInstance c a) := by
  unfold _component_is_aliasable
  cases List.lookup (component_parameters_key cn) clusterParams with
  | none => simp
  | some p =>
      obtain ⟨mi, mmi⟩ := p
      cases mi <;> simp

theorem verify_error_names (aliases : List (String × String))
    (clusterParams : List (String × ComponentParams)) (cn aliasName : String)
    (h : verify_component_aliases aliases clusterParams
      = .error (.notMultiInstance cn aliasName)) :
    (aliasName, cn) ∈ aliases ∧ aliasName ≠ cn
      ∧ _component_is_aliasable clusterParams cn = .ok false := by
  induction aliases with
  | nil => exact Except.noConfusion h
  | cons hd rest ih =>
      obtain ⟨a, c⟩ := hd
      rw [verify_component_aliases] at h
      by_cases hne : a = c
      · rw [if_neg (by simpa using hne)] at h
        rcases ih h with ⟨hm, hne2, hal⟩
        exact ⟨List.mem_cons_of_mem _ hm, hne2, hal⟩
      · rw [if_pos hne] at h
        cases hal : _component_is_aliasable clusterParams c with
        | error e =>
            simp only [hal] at h
            rw [Except.error.injEq] at h
            subst h
            exact absurd hal (aliasable_no_notMultiInstance _ _ _ _)
        | ok b =>
            cases b with
            | true =>
                simp only [hal] at h
                rcases ih h with ⟨hm, hne2, hal2⟩
                exact ⟨List.mem_cons_of_mem _ hm, hne2, hal2⟩
            | false =>
                simp only [hal] at h
                rw [Except.error.injEq, AliasErr.notMultiInstance.injEq] at h
                obtain ⟨hcn, ha⟩ := h
                subst hcn
                subst ha
                exact ⟨List.mem_cons_self _ _, hne, hal⟩

/-- C8 counterexample: the claim is false for an identity alias — in the
cluster parameters, component `bar` does not advertise multi-instance
support in any form, yet verifying the alias mapping `bar → bar`
succeeds instead of failing. -/
theorem verify_component_aliases_identity_counterexample :
    _component_is_aliasable [("bar", ⟨none, none⟩)] "bar" = .ok false
      ∧ verify_component_aliases [("bar", "bar")] [("bar", ⟨none, none⟩)]
        = .ok () := ⟨rfl, rfl⟩

/-- C8 (amended): for alias entries that differ from their component's
name, verification succeeds iff every such alias maps to a component
that is present and advertises multi-instance support (top-level
`multi_instance` or `_metadata.multi_instance`); and a
does-not-support-instantiation failure names exactly a failing
component/alias pair. -/
theorem verify_component_aliases_amended :
    (∀ (aliases : List (String × String))
        (clusterParams : List (String × ComponentParams)),
      verify_component_aliases aliases clusterParams = .ok ()
        ↔ ∀ e ∈ aliases, e.1 ≠ e.2
            → _component_is_aliasable clusterParams e.2 = .ok true)
    ∧ (∀ (aliases : List (String × String))
        (clusterParams : List (String × ComponentParams)) (cn aliasName : String),
      verify_component_aliases aliases clusterParams
          = .error (.notMultiInstance cn aliasName)
        → (aliasName, cn) ∈ aliases ∧ aliasName ≠ cn
          ∧ _component_is_aliasable clusterParams cn = .ok false) :=
  ⟨verify_ok_iff, verify_error_names⟩

/-- C10: alias verification exempts identity mappings — when every
alias entry maps a name to itself, `verify_component_aliases` never
raises, regardless of whether any component advertises multi-instance
support in any form. -/
theorem verify_component_aliases_identity_ok
    (aliases : List (String × String))
    (clusterParams : List (String × ComponentParams))
    (h : ∀ e ∈ aliases, e.1 = e.2) :
    verify_component_aliases aliases clusterParams = .ok () :=
  (verify_ok_iff aliases clusterParams).mpr
    (fun e he hne => absurd (h e he) hne)

theorem verify_component_aliases_identity_ok_witness :
    verify_component_aliases [("bar", "bar")]
      [("bar", ⟨some false, some false⟩)] = .ok () :=
  verify_component_aliases_identity_ok [("bar", "bar")]
    [("bar", ⟨some false, some false⟩)] (by decide)

/-! ## `render_params` fact checking -/

/-- The required cluster facts of `render_params`. -/
def requiredFacts : List String := ["distribution", "cloud"]

/-- The configuration error raised for a missing or empty required
fact, naming the fact. -/
inductive FactErr where
  | missingFact (name : String)
deriving Repr, DecidableEq

/-- The cluster-level parameter block fields the claim is about. -/
structure RenderedParams where
  facts : List (String × String)
  cloudProvider : String
  dist : String
deriving Repr, DecidableEq

/-- A required fact is bad when it is absent or the empty string. -/
def badFact (facts : List (String × String)) (f : String) : Bool :=
  match List.lookup f facts with
  | none => true
  | some v => v == ""

/-- Modelled from the spec: `cluster.render_params` — every required
fact must be present and non-empty, else a configuration error naming
the fact is raised; on success the cluster facts are copied verbatim
into the cluster-level parameter block
(`commodore/cluster.py` is not among the sources). -/
def render_params (facts : List (String × String)) :
    Except FactErr RenderedParams :=
  match requiredFacts.find? (badFact facts) with
  | some f => .error (.missingFact f)
  | none =>
      .ok ⟨facts, (List.lookup "cloud" facts).getD "",
        (List.lookup "distribution" facts).getD ""⟩

/-- C9: `render_params` either raises a configuration error naming a
required fact that is really absent or empty in the cluster response,
or succeeds with the facts copied verbatim and every required fact
present and non-empty — it never silently defaults or omits a fact. -/
theorem render_params_facts_verbatim_or_error
    (facts : List (String × String)) :
    (∃ f, render_params facts = .error (.missingFact f)
      ∧ f ∈ requiredFacts
      ∧ (List.lookup f facts = none ∨ List.lookup f facts = some ""))
    ∨ (∃ out, render_params facts = .ok out ∧ out.facts = facts
      ∧ ∀ f ∈ requiredFacts, ∃ v, List.lookup f facts = some v ∧ v ≠ "") := by
  unfold render_params
  cases hf : requiredFacts.find? (badFact facts) with
  | some f =>
      refine .inl ⟨f, rfl, List.mem_of_find?_eq_some hf, ?_⟩
      have hb : badFact facts f = true := List.find?_some hf
      unfold badFact at hb
      cases hl : List.lookup f facts with
      | none => exact .inl rfl
      | some v =>
          rw [hl] at hb
          right
          rw [beq_iff_eq] at hb
          rw [hb]
  | none =>
      refine .inr ⟨_, rfl, rfl, ?_⟩
      intro f hf2
      have hnb : ¬badFact facts f = true :=
        List.find?_eq_none.mp hf f hf2
      unfold badFact at hnb
      cases hl : List.lookup f facts with
      | none =>
          rw [hl] at hnb
          exact absurd rfl hnb
      | some v =>
          rw [hl] at hnb
          refine ⟨v, rfl, fun hv => hnb ?_⟩
          rw [hv]
          exact beq_self_eq_true ""

end Commodore
